import Mathlib

/-!
# Verification of the `pulse` event bus (killiandvcz/pulse)

Shallow embedding of `src/core/pulse.js`, `src/core/event.js`,
`src/core/listener.js` and `src/core/middleware.js`, together with proofs
about the pattern compiler, the dispatch pipeline, the middleware chain and
the lifecycle operations.

Strings are modelled as Lean `String`/`List Char`; the JavaScript regexes
built by the two pattern compilers are modelled by a small item language
(`RItem`) whose matching semantics (`rmatch`) is the standard language
semantics of the exact regex fragments the compilers emit.  Callback effects
(probe logging, `event.respond`, `event.error`, throwing) are modelled by a
small action language; promise rejection is modelled by an `Except` channel,
and the `async` keyword by `asyncInvoke`, which routes every throw of the
body into the returned promise.  Real time (timers) is not modelled: the
per-listener timeout race is modelled with the chain settling first, and the
timeout *values* that the code computes are modelled separately.
-/

namespace PulseModel

/-- Characters allowed in a topic segment by `Pulse.isValidTopic`
(regex `[a-zA-Z0-9_-]`). -/
def isTopicChar (c : Char) : Bool := c.isAlphanum || c == '_' || c == '-'

/-- Split a character list on `':'` (every occurrence separates; empty
pieces are kept, mirroring how the grammar regex sees `a::b` or `:a`). -/
def splitCo : List Char → List (List Char)
  | [] => [[]]
  | c :: r =>
    let ss := splitCo r
    if c == ':' then [] :: ss
    else
      match ss with
      | s :: t => (c :: s) :: t
      | [] => [[c]]

/-- `Pulse.isValidTopic` on a character list: the regex
`^[a-zA-Z0-9_-]+(?::[a-zA-Z0-9_-]+)*$`, i.e. one or more non-empty
segments of topic characters separated by single colons. -/
def isValidTopicL (l : List Char) : Bool :=
  (splitCo l).all (fun s => !s.isEmpty && s.all isTopicChar)

/-- `Pulse.isValidTopic` (src/core/pulse.js lines 227-230). -/
def isValidTopic (t : String) : Bool := isValidTopicL t.data

/-- The regex fragments that the two pattern compilers of the code emit.
Each constructor is one fragment, with its JavaScript regex text:
* `lit c` — a single literal character (plain, or the escapes `\:`, `\.`);
* `seg` — `[^:]+` (from `*` in `Pulse.#compilePattern`);
* `seg0` — `[^:]*` (from `*` in `Middleware.matches`);
* `anyRun` — `.*` (whole-pattern `**`, and `**` in `Middleware.matches`);
* `optAnyColon` — `(?:.*:)?` (leading `**:`);
* `segs1` — `:[^:]+(?::[^:]+)*` (interior `:**:`);
* `optSegs` — `(?::[^:]+(?::[^:]+)*)?` (trailing `:**`). -/
inductive RItem where
  | lit (c : Char)
  | seg
  | seg0
  | anyRun
  | optAnyColon
  | segs1
  | optSegs
deriving DecidableEq, Repr

/-- `[^:]+(?::[^:]+)*`: a non-empty run of non-empty colon-free segments
separated by single colons. -/
def isSegRun (u : List Char) : Bool := (splitCo u).all (fun s => !s.isEmpty)

/-- The language of one regex fragment: `consumes it t` holds iff the
fragment `it` matches exactly the character list `t`. -/
def consumes : RItem → List Char → Bool
  | .lit c, t => t == [c]
  | .seg, t => !t.isEmpty && t.all (fun c => c != ':')
  | .seg0, t => t.all (fun c => c != ':')
  | .anyRun, _ => true
  | .optAnyColon, t => t.isEmpty || t.getLast? == some ':'
  | .segs1, t =>
    match t with
    | ':' :: u => isSegRun u
    | _ => false
  | .optSegs, t =>
    t.isEmpty ||
      match t with
      | ':' :: u => isSegRun u
      | _ => false

/-- All decompositions of a list into a prefix/suffix pair. -/
def splitsOf : List Char → List (List Char × List Char)
  | [] => [([], [])]
  | c :: r => ([], c :: r) :: (splitsOf r).map (fun p => (c :: p.1, p.2))

/-- Matching a concatenation of fragments against a character list: the
anchored (`^…$`) regex semantics — some decomposition into consecutive
chunks, one consumed by each fragment. -/
def rmatch : List RItem → List Char → Bool
  | [], s => s.isEmpty
  | it :: rest, s => (splitsOf s).any (fun p => consumes it p.1 && rmatch rest p.2)

/-- The `regexStr.endsWith('\:')` removal step of `Pulse.#compilePattern`:
drop the just-added escaped separator before a non-leading `**` (for
patterns over the topic alphabet plus wildcards, the regex string ends in
the escape `\:` exactly when the last fragment is the escaped colon). -/
def dropColon (acc : List RItem) : List RItem :=
  if acc.getLast? = some (.lit ':') then acc.dropLast else acc

/-- `Pulse.#compilePattern` (src/core/pulse.js lines 147-211), with the
regex string replaced by the fragment list it denotes.  The boolean is the
`i === 0` test of the source.  The case split on `**` mirrors the source:
at the very start, `**` alone is `.*`, `**:` is `(?:.*:)?`, and `**`
followed by anything else contributes nothing; later in the pattern, the
escaped separator just added is removed (`dropColon`), then a trailing `**`
is `(?::[^:]+(?::[^:]+)*)?`, `**:` is `:[^:]+(?::[^:]+)*` (the following
`:` is processed normally afterwards), and `**` followed by anything else
contributes nothing. -/
def compileAux : List Char → Bool → List RItem → List RItem
  | [], _, acc => acc
  | ['*', '*'], true, acc => acc ++ [.anyRun]
  | '*' :: '*' :: ':' :: rest2, true, acc =>
    compileAux rest2 false (acc ++ [.optAnyColon])
  | '*' :: '*' :: c2 :: rest2, true, acc =>
    compileAux (c2 :: rest2) false acc
  | ['*', '*'], false, acc => dropColon acc ++ [.optSegs]
  | '*' :: '*' :: ':' :: rest2, false, acc =>
    compileAux (':' :: rest2) false (dropColon acc ++ [.segs1])
  | '*' :: '*' :: c2 :: rest2, false, acc =>
    compileAux (c2 :: rest2) false (dropColon acc)
  | '*' :: rest, _, acc => compileAux rest false (acc ++ [.seg])
  | c :: rest, _, acc => compileAux rest false (acc ++ [.lit c])

/-- Compile a listener pattern, ignoring the cache (the cache stores exactly
this value, see `compileCached`). -/
def compile (p : String) : List RItem := compileAux p.data true []

/-- `Pulse.#matchPattern` / `Pulse.matchesPattern`: test the compiled
pattern against a topic. -/
def matchPattern (topic pattern : String) : Bool :=
  rmatch (compile pattern) topic.data

/-- `Middleware.matches` (src/core/middleware.js lines 35-60): the separate
middleware pattern compiler; `**` becomes `(.*)` and `*` becomes `([^:]*)`,
with no special treatment of the surrounding separators. -/
def mwCompile : List Char → List RItem
  | [] => []
  | '.' :: rest => .lit '.' :: mwCompile rest
  | ':' :: rest => .lit ':' :: mwCompile rest
  | '*' :: '*' :: rest => .anyRun :: mwCompile rest
  | '*' :: rest => .seg0 :: mwCompile rest
  | c :: rest => .lit c :: mwCompile rest

/-- `Middleware.matches`: compile the middleware's pattern and test the
topic against it. -/
def mwMatches (topic pattern : String) : Bool :=
  rmatch (mwCompile pattern.data) topic.data

/-! ## The pattern cache (`Pulse.#patternCache`) -/

/-- `this.#patternCache.has/get`: association-list lookup by exact pattern
string. -/
def lookupCache (cache : List (String × List RItem)) (p : String) :
    Option (List RItem) :=
  match cache.find? (fun e => e.1 == p) with
  | some e => some e.2
  | none => none

/-- `Pulse.#compilePattern` including its cache behaviour: return the cached
matcher if present, otherwise compile and append to the cache.  Nothing in
the source ever removes a cache entry. -/
def compileCached (cache : List (String × List RItem)) (p : String) :
    List RItem × List (String × List RItem) :=
  match lookupCache cache p with
  | some r => (r, cache)
  | none => (compile p, cache ++ [(p, compile p)])

/-- Compile a sequence of patterns in order, threading the cache. -/
def compileMany (ps : List String) (cache : List (String × List RItem)) :
    List (String × List RItem) :=
  ps.foldl (fun c p => (compileCached c p).2) cache

/-- The pattern `"a"`, `"aa"`, `"aaa"`, …: a family of pairwise distinct
valid patterns used to exercise the cache. -/
def mkPat (i : Nat) : String := ⟨List.replicate (i + 1) 'a'⟩

/-- The first `n` patterns of the family. -/
def seqPatterns (n : Nat) : List String := (List.range n).map mkPat

/-! ## Events, callback effects and the dispatch pipeline -/

/-- The options argument of `emit` (and of the `PulseEvent` constructor):
`none` models an absent property. -/
structure EmitOptions where
  timeout : Option Nat := none
  silent : Option Bool := none
deriving DecidableEq, Repr

/-- `const timeout = options?.timeout || 30000` (src/core/pulse.js line
116): the window actually used for the per-listener race; `0` is falsy in
JavaScript, so it also yields `30000`. -/
def effectiveRaceTimeout (o : EmitOptions) : Nat :=
  match o.timeout with
  | none => 30000
  | some 0 => 30000
  | some t => t

/-- The `timeout` field of the options record stored on the event by the
`PulseEvent` constructor: `{ silent: false, source: null, timeout: 5000,
...options }` — the spread overrides the default whenever the property is
present (even when `0`). -/
def eventOptionsTimeout (o : EmitOptions) : Nat := o.timeout.getD 5000

/-- The `silent` field stored on the event, defaulting to `false`. -/
def eventSilent (o : EmitOptions) : Bool := o.silent.getD false

/-- The mutable per-emission record (`PulseEvent`), restricted to the fields
the claims are about.  Responses and errors are modelled as strings. -/
structure EventM where
  topic : String
  silent : Bool
  optionsTimeout : Nat
  responses : List String
  errors : List String
deriving DecidableEq, Repr

/-- `new PulseEvent(topic, data, options)`: fresh empty response and error
lists. -/
def mkEvent (topic : String) (o : EmitOptions) : EventM :=
  ⟨topic, eventSilent o, eventOptionsTimeout o, [], []⟩

/-- `PulseEvent.respond`: append unless silent. -/
def respond (e : EventM) (v : String) : EventM :=
  if e.silent then e else { e with responses := e.responses ++ [v] }

/-- `PulseEvent.error`: append unless silent. -/
def recordError (e : EventM) (err : String) : EventM :=
  if e.silent then e else { e with errors := e.errors ++ [err] }

/-- One effect a callback can perform: log a label to an external
sequencing probe (the test's `sequence` array), call `event.respond`, or
call `event.error`. -/
inductive Act where
  | probe (l : String)
  | respondAct (v : String)
  | errAct (e : String)
deriving DecidableEq, Repr

/-- Apply one effect to the shared event and the probe log. -/
def applyAct : EventM × List String → Act → EventM × List String
  | (e, log), .probe l => (e, log ++ [l])
  | (e, log), .respondAct v => (respond e v, log)
  | (e, log), .errAct x => (recordError e x, log)

/-- Apply a list of effects in order. -/
def applyActs (s : EventM × List String) (as : List Act) : EventM × List String :=
  as.foldl applyAct s

/-- A registered middleware (`Middleware`): its pattern and the behaviour
of its callback `(context, next) => …`, modelled as effects before `next`,
an optional throw (which rejects before `next` is reached), whether it
calls `next()` (at most once, awaited — the shape every middleware in the
repository's tests has), and effects after `next` resolves. -/
structure MWRec where
  pattern : String
  pre : List Act := []
  thenThrow : Option String := none
  callsNext : Bool := true
  post : List Act := []
deriving DecidableEq, Repr

deriving instance DecidableEq for Except

/-- A registered listener (`Listener`, src/core/listener.js): its pattern
and the behaviour of its callback, which logs its probe label when invoked
and then either returns a value (`some v`, auto-responded by
`Listener.call`), returns `undefined`/`null` (`none`), or throws. -/
structure LRec where
  pattern : String
  probe : Option String := none
  beh : Except String (Option String) := .ok none
  calls : Nat := 0
  autodestroyCalls : Option Nat := none
  destroyed : Bool := false
deriving DecidableEq, Repr

/-- `Listener.call` (src/core/listener.js lines 125-137): invoke the
callback; a defined, non-null return value is auto-appended via
`event.respond`; a throw is caught and recorded via `event.error`; the
`finally` block increments the call counter and, when the (truthy)
`autodestroy.calls` threshold is reached, destroys the listener (modelled
by the `destroyed` flag; the registry-level removal is `destroyListener`).
`call` itself never rejects. -/
def listenerCall (l : LRec) (s : EventM × List String) :
    LRec × (EventM × List String) :=
  let (e, log) := s
  let log1 := match l.probe with
    | some lb => log ++ [lb]
    | none => log
  let e1 := match l.beh with
    | .ok (some v) => respond e v
    | .ok none => e
    | .error err => recordError e err
  let calls1 := l.calls + 1
  let destroyed1 := l.destroyed ||
    match l.autodestroyCalls with
    | some (k + 1) => decide (calls1 ≥ k + 1)
    | _ => false
  ({ l with calls := calls1, destroyed := destroyed1 }, (e1, log1))

/-- The `next` closure of `Pulse.applyMiddlewaresToListener` (src/core/
pulse.js lines 76-86), on the remaining filtered middlewares: when the list
is exhausted, invoke `listener.call`; otherwise run the next middleware's
callback with the continuation.  The third component is the rejection
channel: a middleware throw rejects the chain promise, and a middleware
that awaited `next()` rethrows a rejection coming from deeper in the chain
(its post-`next` code never runs). -/
def chainRun (mws : List MWRec) (l : LRec) (s : EventM × List String) :
    LRec × (EventM × List String) × Option String :=
  match mws with
  | [] =>
    let (l1, s1) := listenerCall l s
    (l1, s1, none)
  | m :: rest =>
    let s1 := applyActs s m.pre
    match m.thenThrow with
    | some err => (l, s1, some err)
    | none =>
      if m.callsNext then
        let (l1, s2, out) := chainRun rest l s1
        match out with
        | some err => (l1, s2, some err)
        | none => (l1, applyActs s2 m.post, none)
      else (l, applyActs s1 m.post, none)

/-- `Pulse.applyMiddlewaresToListener` (src/core/pulse.js lines 69-87):
filter the registered middlewares by `Middleware.matches` against the
event's topic, then run the chain (an empty filtered list goes straight to
`listener.call`, which is also what `chainRun []` does). -/
def applyMiddlewaresToListener (mws : List MWRec) (topic : String) (l : LRec)
    (s : EventM × List String) : LRec × (EventM × List String) × Option String :=
  chainRun (mws.filter (fun m => mwMatches topic m.pattern)) l s

/-- The bus state: `this.listeners` is a `Map` from pattern string to a
`Set` of listeners (insertion-ordered buckets of insertion-ordered
listeners), `this.middlewares` an ordered array. -/
structure PulseState where
  listeners : List (String × List LRec) := []
  middlewares : List MWRec := []
deriving DecidableEq, Repr

/-- The listener-collection loop of `emit` (src/core/pulse.js lines
106-110): every bucket whose pattern matches the topic contributes its
listeners, buckets in registration order. -/
def matchedListeners (st : PulseState) (topic : String) : List LRec :=
  ((st.listeners.filter (fun b => matchPattern topic b.1)).map Prod.snd).flatten

/-- The result of an `emit`: the settled event, the external probe log, and
the matched listeners' records after their chains ran. -/
structure EmitRes where
  event : EventM
  log : List String
  listenersAfter : List LRec
deriving DecidableEq, Repr

/-- `Pulse.emit` (src/core/pulse.js lines 97-141).  An invalid topic throws
(`Except.error`).  Otherwise one event is created; with no matching
listener it is returned at once.  Each matching listener's chain is raced
against the timeout timer inside a `try`/`catch` whose handler records the
failure via `event.error`; the race is modelled with the chain settling
(timers and real time are outside the model), so the `catch` fires exactly
on chain rejection.  `Promise.allSettled` then waits for every per-listener
task, and the event is returned; the per-listener tasks are cooperatively
scheduled, modelled by running the chains in listener order. -/
def emit (st : PulseState) (topic : String) (o : EmitOptions) :
    Except String EmitRes :=
  if isValidTopic topic = false then .error ("Invalid topic: " ++ topic)
  else
    let ls := matchedListeners st topic
    let ev := mkEvent topic o
    if ls.isEmpty then .ok ⟨ev, [], []⟩
    else
      let step := fun (acc : (EventM × List String) × List LRec) (l : LRec) =>
        let (l1, s1, out) := applyMiddlewaresToListener st.middlewares topic l acc.1
        match out with
        | some err => ((recordError s1.1 err, s1.2), acc.2 ++ [l1])
        | none => (s1, acc.2 ++ [l1])
      let r := ls.foldl step ((ev, []), [])
      .ok ⟨r.1.1, r.1.2, r.2⟩

/-- Invoking a JavaScript `async` function: the synchronous-exception
channel (first component) and the returned promise (second).  A throw
anywhere in the body of an `async` function is captured into the returned
promise, so the synchronous channel is always empty. -/
def asyncInvoke {α : Type} (body : Except String α) :
    Option String × Except String α := (none, body)

/-- A call of `emit` as the caller observes it: `emit` is an `async` arrow
function, so its topic-validation throw travels through the returned
promise. -/
def emitCall (st : PulseState) (topic : String) (o : EmitOptions) :
    Option String × Except String EmitRes :=
  asyncInvoke (emit st topic o)

/-! ## Registration -/

/-- `pattern.replace(/\*/g, "placeholder")` (src/core/pulse.js line 41):
every `*` character becomes the string `placeholder`. -/
def replaceStars (p : String) : String :=
  ⟨p.data.foldr (fun c acc => if c == '*' then "placeholder".data ++ acc else c :: acc) []⟩

/-- Insert a listener into its pattern's bucket, creating the bucket at the
end if the pattern is new (`Map` insertion order). -/
def insertBucket : List (String × List LRec) → String → LRec → List (String × List LRec)
  | [], p, l => [(p, [l])]
  | (q, b) :: rest, p, l =>
    if q = p then (q, b ++ [l]) :: rest
    else (q, b) :: insertBucket rest p l

/-- `Pulse.on` (src/core/pulse.js lines 39-46): substitute `placeholder`
for each `*`, validate against the plain-topic grammar, and throw
`Invalid pattern: …` on failure; otherwise add the listener to its
bucket. -/
def onReg (st : PulseState) (pattern : String) (l : LRec) :
    Except String PulseState :=
  if isValidTopic (replaceStars pattern) = false then
    .error ("Invalid pattern: " ++ pattern)
  else .ok { st with listeners := insertBucket st.listeners pattern l }

/-! ## Lifecycle: destroy operations -/

/-- `Listener.destroy` (src/core/listener.js lines 139-150) at registry
level, with listeners identified by ids: clear the timer (not modelled),
look up the bucket for the listener's pattern (`Map.get`; a missing bucket
means nothing happens), delete the listener from the set, and drop the
bucket when it became empty. -/
def destroyListener : List (String × List Nat) → String → Nat → List (String × List Nat)
  | [], _, _ => []
  | (q, b) :: rest, p, id =>
    if q = p then
      let b1 := b.filter (fun x => x ≠ id)
      if b1.isEmpty then rest else (q, b1) :: rest
    else (q, b) :: destroyListener rest p id

/-- The destroy state of one `Middleware` handle: after a first `destroy`,
the source replaces the `destroy` method by one that only throws; the flag
records that replacement. -/
structure MWHandle where
  destroyed : Bool := false
deriving DecidableEq, Repr

/-- `Middleware.destroy` (src/core/middleware.js lines 62-70): a first call
filters the middleware out of `pulse.middlewares` and installs the
throwing replacement; a later call runs the replacement, which throws
`Middleware already destroyed` without touching the registry. -/
def destroyMiddleware (mws : List Nat) (id : Nat) (h : MWHandle) :
    Except String (List Nat × MWHandle) :=
  if h.destroyed then .error "Middleware already destroyed"
  else .ok (mws.filter (fun x => x ≠ id), ⟨true⟩)

end PulseModel

/-! ## Helper lemmas -/

namespace PulseModel

theorem splitCo_ne_nil (l : List Char) : splitCo l ≠ [] := by
  induction l with
  | nil => simp [splitCo]
  | cons c r ih =>
    simp only [splitCo]
    by_cases hc : c == ':'
    · simp [hc]
    · simp only [hc, if_false]
      cases h : splitCo r with
      | nil => exact absurd h ih
      | cons s t => simp

theorem mem_splitCo {c : Char} {l : List Char} (hm : c ∈ l) (hc : c ≠ ':') :
    ∃ s ∈ splitCo l, c ∈ s := by
  induction l with
  | nil => cases hm
  | cons x r ih =>
    simp only [splitCo]
    by_cases hx : x == ':'
    · have hxc : x = ':' := by simpa using hx
      have hcr : c ∈ r := by
        rcases List.mem_cons.mp hm with h | h
        · exact absurd (h.trans hxc) hc
        · exact h
      rcases ih hcr with ⟨s, hs, hcs⟩
      exact ⟨s, by simp [hx, hs], hcs⟩
    · simp only [hx, if_false]
      cases hsp : splitCo r with
      | nil => exact absurd hsp (splitCo_ne_nil r)
      | cons s t =>
        rcases List.mem_cons.mp hm with h | h
        · exact ⟨x :: s, by simp, by simp [h]⟩
        · rcases ih h with ⟨s1, hs1, hcs1⟩
          rw [hsp] at hs1
          rcases List.mem_cons.mp hs1 with h1 | h1
          · exact ⟨x :: s, by simp, by simp [h1 ▸ hcs1]⟩
          · exact ⟨s1, by simp [h1], hcs1⟩

theorem isValidTopicL_false_of_bad_char {c : Char} {l : List Char} (hm : c ∈ l)
    (hbad : isTopicChar c = false) (hc : c ≠ ':') : isValidTopicL l = false := by
  rcases mem_splitCo hm hc with ⟨s, hs, hcs⟩
  by_contra h
  have hv : isValidTopicL l = true := by
    cases hval : isValidTopicL l
    · exact absurd hval h
    · rfl
  have hpair := List.all_eq_true.mp hv s hs
  rw [Bool.and_eq_true] at hpair
  have hall : s.all isTopicChar = true := hpair.2
  have hct := List.all_eq_true.mp hall c hcs
  rw [hbad] at hct
  cases hct

theorem mem_foldStars {c : Char} {l : List Char} (hm : c ∈ l) (hc : c ≠ '*') :
    c ∈ l.foldr (fun c acc => if c == '*' then "placeholder".data ++ acc else c :: acc) [] := by
  induction l with
  | nil => cases hm
  | cons x r ih =>
    simp only [List.foldr_cons]
    rcases List.mem_cons.mp hm with h | h
    · subst h
      have hcs : (c == '*') = false := by simpa using hc
      simp [hcs]
    · by_cases hx : (x == '*') = true
      · simp only [hx, if_true]
        exact List.mem_append_right _ (ih h)
      · have hxf : (x == '*') = false := by simpa using hx
        simp only [hxf]
        exact List.mem_cons_of_mem _ (ih h)

theorem mem_replaceStars {c : Char} {p : String} (hm : c ∈ p.data) (hc : c ≠ '*') :
    c ∈ (replaceStars p).data :=
  mem_foldStars hm hc

theorem lookupCache_append_none {c : List (String × List RItem)} {q p : String}
    {r : List RItem} (h : lookupCache c q = none) (hne : q ≠ p) :
    lookupCache (c ++ [(p, r)]) q = none := by
  induction c with
  | nil =>
    simp only [List.nil_append, lookupCache, List.find?]
    have : (p == q) = false := by simpa using fun he => hne he.symm
    simp [this]
  | cons e rest ih =>
    simp only [lookupCache, List.cons_append, List.find?] at h ⊢
    cases hx : (e.1 == q) with
    | true => simp [hx] at h
    | false =>
      simp only [hx] at h ⊢
      exact ih h

theorem compileCached_fresh {c : List (String × List RItem)} {p : String}
    (h : lookupCache c p = none) :
    (compileCached c p).2 = c ++ [(p, compile p)] := by
  simp [compileCached, h]

theorem compileCached_length_le (c : List (String × List RItem)) (p : String) :
    c.length ≤ ((compileCached c p).2).length := by
  unfold compileCached
  cases h : lookupCache c p <;> simp

theorem compileMany_fresh_length (ps : List String) :
    ∀ c : List (String × List RItem), ps.Nodup →
      (∀ p ∈ ps, lookupCache c p = none) →
      (compileMany ps c).length = c.length + ps.length := by
  induction ps with
  | nil => intro c _ _; simp [compileMany]
  | cons p rest ih =>
    intro c hnd hf
    have hp : lookupCache c p = none := hf p (by simp)
    have step : compileMany (p :: rest) c = compileMany rest (c ++ [(p, compile p)]) := by
      simp [compileMany, compileCached_fresh hp]
    rw [step]
    have hnd2 : rest.Nodup := (List.nodup_cons.mp hnd).2
    have hnp : p ∉ rest := (List.nodup_cons.mp hnd).1
    have hf2 : ∀ q ∈ rest, lookupCache (c ++ [(p, compile p)]) q = none := by
      intro q hq
      exact lookupCache_append_none (hf q (by simp [hq]))
        (fun he => hnp (he ▸ hq))
    rw [ih (c ++ [(p, compile p)]) hnd2 hf2]
    simp
    omega

theorem mkPat_injective : Function.Injective mkPat := by
  intro i j h
  have hd : (mkPat i).data = (mkPat j).data := by rw [h]
  have : i + 1 = j + 1 := by
    have := congrArg List.length hd
    simpa [mkPat] using this
  omega

theorem seqPatterns_nodup (n : Nat) : (seqPatterns n).Nodup :=
  (List.nodup_range n).map mkPat_injective

theorem compileMany_seq_length (n : Nat) :
    (compileMany (seqPatterns n) []).length = n := by
  have := compileMany_fresh_length (seqPatterns n) [] (seqPatterns_nodup n)
    (fun p _ => rfl)
  simpa [seqPatterns] using this

theorem destroyListener_of_not_mem (bs : List (String × List Nat)) (p : String)
    (id : Nat) (h : p ∉ bs.map Prod.fst) : destroyListener bs p id = bs := by
  induction bs with
  | nil => rfl
  | cons e rest ih =>
    simp only [List.map_cons, List.mem_cons] at h
    push_neg at h
    obtain ⟨e1, e2⟩ := e
    simp only [destroyListener]
    rw [if_neg (fun he => h.1 he.symm)]
    rw [ih h.2]

theorem destroyListener_cons_eq (q : String) (b : List Nat)
    (rest : List (String × List Nat)) (p : String) (id : Nat) :
    destroyListener ((q, b) :: rest) p id =
      if q = p then
        (if (b.filter (fun x => x ≠ id)).isEmpty then rest
         else (q, b.filter (fun x => x ≠ id)) :: rest)
      else (q, b) :: destroyListener rest p id := rfl

theorem filter_ne_idem (b : List Nat) (id : Nat) :
    (b.filter (fun x => x ≠ id)).filter (fun x => x ≠ id) = b.filter (fun x => x ≠ id) := by
  induction b with
  | nil => rfl
  | cons x rest ih =>
    by_cases hx : x = id
    · simp [hx, ih]
    · simp [List.filter_cons, hx, ih]

/-! ## Dispatch lemmas -/

theorem matchedListeners_single (p : String) (l : LRec) (mws : List MWRec)
    (topic : String) (h : matchPattern topic p = true) :
    matchedListeners { listeners := [(p, [l])], middlewares := mws } topic = [l] := by
  simp [matchedListeners, h]

theorem emit_ok (st : PulseState) (topic : String) (o : EmitOptions)
    (h : isValidTopic topic = true) : ∃ r, emit st topic o = .ok r := by
  unfold emit
  simp only [h]
  by_cases hls : (matchedListeners st topic).isEmpty <;> simp [hls]

theorem emit_no_listeners (st : PulseState) (topic : String) (o : EmitOptions)
    (h : isValidTopic topic = true) (hm : matchedListeners st topic = []) :
    emit st topic o = .ok ⟨mkEvent topic o, [], []⟩ := by
  unfold emit
  simp [h, hm]

theorem emit_single_listener (mws : List MWRec) (p : String) (l : LRec)
    (topic : String) (o : EmitOptions)
    (h : isValidTopic topic = true) (hp : matchPattern topic p = true) :
    emit { listeners := [(p, [l])], middlewares := mws } topic o =
      (match applyMiddlewaresToListener mws topic l (mkEvent topic o, []) with
       | (l1, s1, some err) => .ok ⟨recordError s1.1 err, s1.2, [l1]⟩
       | (l1, s1, none) => .ok ⟨s1.1, s1.2, [l1]⟩) := by
  unfold emit
  rw [matchedListeners_single p l mws topic hp]
  simp only [h]
  rcases hr : applyMiddlewaresToListener mws topic l (mkEvent topic o, []) with ⟨l1, s1, out⟩
  cases out <;> simp [hr]

/-- A well-formed cache (one that only ever received entries from the
compiler, as `Pulse.#patternCache` does) never changes the result of
`Pulse.#compilePattern`: the cached matcher is the compiled matcher. -/
theorem compileCached_faithful (cache : List (String × List RItem)) (p : String)
    (hwf : ∀ e ∈ cache, e.2 = compile e.1) :
    (compileCached cache p).1 = compile p := by
  unfold compileCached
  cases hl : lookupCache cache p with
  | none => rfl
  | some r =>
    unfold lookupCache at hl
    cases hf : cache.find? (fun e => e.1 == p) with
    | none => rw [hf] at hl; cases hl
    | some e =>
      rw [hf] at hl
      have he : e ∈ cache := List.mem_of_find?_eq_some hf
      have hp : (e.1 == p) = true := @List.find?_some _ (fun e => e.1 == p) e cache hf
      have : e.1 = p := by simpa using hp
      simp only [Option.some.injEq] at hl
      rw [← hl, hwf e he, this]

/-! ## The claims -/

/-- C1: the claim states that `a:**:b` (interior `**`) matches `a:b` with
zero middle segments as well as `a:x:b`, `a:x:y:b` with one or more.  On
the code the zero-segment case fails: `Pulse.#compilePattern` translates an
interior `**` to `:[^:]+(?::[^:]+)*`, which demands at least one middle
segment, so `a:**:b` rejects `a:b` (and `user:**:deleted` rejects
`user:deleted`, the match the README documents as holding), while the
one-or-more cases match. -/
theorem interior_doublestar_requires_segment :
    matchPattern "a:b" "a:**:b" = false ∧
    matchPattern "a:x:b" "a:**:b" = true ∧
    matchPattern "a:x:y:b" "a:**:b" = true ∧
    matchPattern "user:deleted" "user:**:deleted" = false ∧
    matchPattern "user:account:deleted" "user:**:deleted" = true := by decide

/-- C2 (counterexample): the claim states `++` patterns are accepted at
registration; on the code `Pulse.on("ns:++", …)` throws
`Invalid pattern: ns:++`, because `on` replaces only `*` characters with
`placeholder` before the grammar check and `+` is outside the segment
alphabet. -/
theorem plusplus_registration_throws :
    onReg {} "ns:++" { pattern := "ns:++" } = .error "Invalid pattern: ns:++" := by decide

/-- C2 (amended): no `++` wildcard exists; every pattern containing a `+`
character is rejected at registration with `Invalid pattern: …`, whatever
the bus state and listener. -/
theorem plus_pattern_rejected (st : PulseState) (p : String) (l : LRec)
    (h : '+' ∈ p.data) : onReg st p l = .error ("Invalid pattern: " ++ p) := by
  have h1 : '+' ∈ (replaceStars p).data := mem_replaceStars h (by decide)
  have h2 : isValidTopic (replaceStars p) = false :=
    isValidTopicL_false_of_bad_char h1 (by decide) (by decide)
  simp [onReg, h2]

/-- C2 (witness): `ns:++` contains `+` and is indeed rejected. -/
theorem plus_pattern_rejected_witness :
    onReg {} "a:++" { pattern := "a:++" } = .error ("Invalid pattern: " ++ "a:++") :=
  plus_pattern_rejected {} "a:++" { pattern := "a:++" } (by decide)

/-- C3: for every valid topic `emit` resolves with exactly one event; with
zero matching listeners the event carries empty `responses` and `errors`;
a throwing listener callback and a throwing middleware both surface as an
entry appended to `event.errors` (under the default non-silent options)
rather than as a rejection of `emit`. -/
theorem emit_always_resolves (st : PulseState) (topic : String) (o : EmitOptions)
    (h : isValidTopic topic = true) :
    (∃ r, emit st topic o = .ok r) ∧
    (matchedListeners st topic = [] →
      emit st topic o = .ok ⟨mkEvent topic o, [], []⟩ ∧
      (mkEvent topic o).responses = [] ∧ (mkEvent topic o).errors = []) ∧
    (∀ p e lb, matchPattern topic p = true → eventSilent o = false →
      ∃ r, emit { listeners := [(p, [{ pattern := p, probe := some lb, beh := .error e }])],
                  middlewares := [] } topic o = .ok r ∧
        r.event.errors = [e] ∧ r.log = [lb]) ∧
    (∀ p e, matchPattern topic p = true → mwMatches topic p = true → eventSilent o = false →
      ∃ r, emit { listeners := [(p, [{ pattern := p }])],
                  middlewares := [{ pattern := p, thenThrow := some e }] } topic o = .ok r ∧
        r.event.errors = [e] ∧ r.log = []) := by
  refine ⟨emit_ok st topic o h, ?_, ?_, ?_⟩
  · intro hm
    exact ⟨emit_no_listeners st topic o h hm, rfl, rfl⟩
  · intro p e lb hp hs
    rw [emit_single_listener _ _ _ _ _ h hp]
    simp [applyMiddlewaresToListener, chainRun, listenerCall, recordError, mkEvent, hs]
  · intro p e hp hmw hs
    rw [emit_single_listener _ _ _ _ _ h hp]
    simp [applyMiddlewaresToListener, hmw, chainRun, applyActs, recordError, mkEvent, hs]

/-- C3 (witness): at the valid topic `t` on an empty bus, `emit`
resolves. -/
theorem emit_always_resolves_witness :
    isValidTopic "t" = true ∧ ∃ r, emit {} "t" {} = .ok r :=
  ⟨by decide, (emit_always_resolves {} "t" {} (by decide)).1⟩

/-- C4: with middlewares M1, M2 registered in that order and both matching
the emitted topic, and a matching listener, the chain runs in onion order:
the probe log reads `[M1-pre, M2-pre, L, M2-post, M1-post]`. -/
theorem middleware_onion_order (topic lp p1 p2 a b c d e : String)
    (h : isValidTopic topic = true) (hl : matchPattern topic lp = true)
    (h1 : mwMatches topic p1 = true) (h2 : mwMatches topic p2 = true) :
    ∃ r, emit { listeners := [(lp, [{ pattern := lp, probe := some e }])],
                middlewares := [{ pattern := p1, pre := [.probe a], post := [.probe c] },
                                { pattern := p2, pre := [.probe b], post := [.probe d] }] }
          topic {} = .ok r ∧ r.log = [a, b, e, d, c] := by
  rw [emit_single_listener _ _ _ _ _ h hl]
  simp [applyMiddlewaresToListener, h1, h2, chainRun, applyActs, applyAct, listenerCall]

/-- C4 (witness): the concrete probe
`[M1-pre, M2-pre, L, M2-post, M1-post]` on topic `t`. -/
theorem middleware_onion_order_witness :
    ∃ r, emit { listeners := [("t", [{ pattern := "t", probe := some "L" }])],
                middlewares := [{ pattern := "t", pre := [.probe "M1-pre"],
                                  post := [.probe "M1-post"] },
                                { pattern := "t", pre := [.probe "M2-pre"],
                                  post := [.probe "M2-post"] }] }
          "t" {} = .ok r ∧ r.log = ["M1-pre", "M2-pre", "L", "M2-post", "M1-post"] :=
  middleware_onion_order "t" "t" "t" "t" "M1-pre" "M2-pre" "M1-post" "M2-post" "L"
    (by decide) (by decide) (by decide) (by decide)

/-- C5: a matching middleware that never calls `next()` prevents the
listener callback from running (its probe is never logged and its call
counter keeps its old value), and a value it passed to `event.respond`
is in `event.responses` when `emit` settles. -/
theorem middleware_without_next_blocks (topic lp p1 x lb : String) (n : Nat)
    (h : isValidTopic topic = true) (hl : matchPattern topic lp = true)
    (h1 : mwMatches topic p1 = true) :
    ∃ r, emit { listeners := [(lp, [{ pattern := lp, probe := some lb, calls := n }])],
                middlewares := [{ pattern := p1, pre := [.respondAct x],
                                  callsNext := false }] }
          topic {} = .ok r ∧
      r.event.responses = [x] ∧ r.log = [] ∧ r.listenersAfter.map LRec.calls = [n] := by
  rw [emit_single_listener _ _ _ _ _ h hl]
  simp [applyMiddlewaresToListener, h1, chainRun, applyActs, applyAct, respond, mkEvent,
    eventSilent]

/-- C5 (witness): a blocking middleware responding `blocked` on topic
`t:foo`: the response is recorded, the probe log stays empty, and the
listener's call counter stays at 3. -/
theorem middleware_without_next_blocks_witness :
    ∃ r, emit { listeners := [("t:*", [{ pattern := "t:*", probe := some "H", calls := 3 }])],
                middlewares := [{ pattern := "t:*", pre := [.respondAct "blocked"],
                                  callsNext := false }] }
          "t:foo" {} = .ok r ∧
      r.event.responses = ["blocked"] ∧ r.log = [] ∧ r.listenersAfter.map LRec.calls = [3] :=
  middleware_without_next_blocks "t:foo" "t:*" "t:*" "blocked" "H" 3
    (by decide) (by decide) (by decide)

/-- C6 (counterexample): the claim states an invalid topic raises a
synchronous error, not one delivered through the returned promise; in the
code `emit` is an `async` function, so the synchronous channel carries
nothing and the `Invalid topic` error arrives as a rejection of the
returned promise. -/
theorem invalid_topic_not_sync_throw :
    emitCall {} "invalid topic" {} = (none, .error "Invalid topic: invalid topic") := by decide

/-- C6 (amended): a topic failing the grammar makes the promise returned by
`emit` reject with `Invalid topic: …` before any listener resolution or
event construction; the rejection reaches an awaiting caller (it is never
swallowed), but no synchronous exception escapes. -/
theorem invalid_topic_rejects_promise (st : PulseState) (topic : String) (o : EmitOptions)
    (h : isValidTopic topic = false) :
    emitCall st topic o = (none, .error ("Invalid topic: " ++ topic)) := by
  simp [emitCall, asyncInvoke, emit, h]

/-- C6 (witness): the concrete rejection for a topic with a space. -/
theorem invalid_topic_rejects_promise_witness :
    emitCall {} "bad topic" {} = (none, .error ("Invalid topic: " ++ "bad topic")) :=
  invalid_topic_rejects_promise {} "bad topic" {} (by decide)

/-- C7 (counterexample): the claim states the per-listener race window
defaults to 5000 ms; the code computes
`const timeout = options?.timeout || 30000`, so with no `timeout` option
the race uses 30000 ms, not 5000 ms. -/
theorem default_timeout_is_not_5000 :
    effectiveRaceTimeout {} = 30000 ∧ ¬ effectiveRaceTimeout {} = 5000 := by decide

/-- C7 (amended): with no `timeout` option the per-listener race window is
30000 ms; the event's `options.timeout` field separately defaults to
5000 ms (the `PulseEvent` constructor), but the race does not use it. -/
theorem default_timeout_values (o : EmitOptions) (t : String) (h : o.timeout = none) :
    effectiveRaceTimeout o = 30000 ∧ eventOptionsTimeout o = 5000 ∧
      (mkEvent t o).optionsTimeout = 5000 := by
  simp [effectiveRaceTimeout, eventOptionsTimeout, mkEvent, h]

/-- C7 (witness): the defaults at the empty options record. -/
theorem default_timeout_values_witness :
    effectiveRaceTimeout {} = 30000 ∧ eventOptionsTimeout {} = 5000 ∧
      (mkEvent "t" {}).optionsTimeout = 5000 :=
  default_timeout_values {} "t" (by decide)

/-- C8 (counterexample): the claim states the compiled-pattern cache is
cleared once its size crosses 1000 entries; compiling 1001 distinct
patterns leaves 1001 entries in the cache. -/
theorem pattern_cache_exceeds_any_bound :
    (compileMany (seqPatterns 1001) []).length = 1001 ∧ 1000 < 1001 :=
  ⟨compileMany_seq_length 1001, by omega⟩

/-- C8 (amended): the cache is unbounded: nothing in `Pulse.#compilePattern`
(or anywhere else in the class) removes entries — compiling `n` distinct
patterns yields a cache of `n` entries for every `n`, and a compile never
shrinks the cache. -/
theorem pattern_cache_unbounded :
    (∀ n, (compileMany (seqPatterns n) []).length = n) ∧
    (∀ cache p, cache.length ≤ ((compileCached cache p).2).length) :=
  ⟨compileMany_seq_length, compileCached_length_le⟩

/-- C9 (counterexample): the claim states a second `destroy` never throws;
for a middleware the first `destroy` succeeds and installs a throwing
replacement, so the second call throws `Middleware already destroyed`. -/
theorem middleware_second_destroy_throws :
    destroyMiddleware [5] 5 ⟨false⟩ = .ok ([], ⟨true⟩) ∧
    destroyMiddleware [] 5 ⟨true⟩ = .error "Middleware already destroyed" := by decide

/-- C9 (amended): destroying an already-destroyed listener is a harmless
no-op (the operation is idempotent on the registry and total), while a
second `destroy` on a middleware throws `Middleware already destroyed`;
neither call corrupts the registry (the middleware registry was already
updated by the first call and the throwing replacement does not touch
it). -/
theorem destroy_twice_behaviour :
    (∀ bs p id, (bs.map Prod.fst).Nodup →
      destroyListener (destroyListener bs p id) p id = destroyListener bs p id) ∧
    (∀ mws id, destroyMiddleware mws id ⟨true⟩ = .error "Middleware already destroyed") ∧
    (∀ mws id, destroyMiddleware mws id ⟨false⟩ =
      .ok (mws.filter (fun x => x ≠ id), ⟨true⟩)) := by
  refine ⟨?_, fun mws id => rfl, fun mws id => rfl⟩
  intro bs p id hnd
  induction bs with
  | nil => rfl
  | cons e rest ih =>
    obtain ⟨q, b⟩ := e
    simp only [List.map_cons, List.nodup_cons] at hnd
    rw [destroyListener_cons_eq]
    by_cases hq : q = p
    · rw [if_pos hq]
      cases hb : (b.filter (fun x => x ≠ id)).isEmpty with
      | true =>
        rw [if_pos rfl]
        exact destroyListener_of_not_mem rest p id (hq ▸ hnd.1)
      | false =>
        rw [if_neg (by simp)]
        rw [destroyListener_cons_eq, if_pos hq, filter_ne_idem]
        rw [if_neg (by rw [hb]; simp)]
    · rw [if_neg hq]
      rw [destroyListener_cons_eq, if_neg hq, ih hnd.2]

/-- C9 (witness): listener double-destroy is a no-op on a concrete
registry. -/
theorem destroy_twice_behaviour_witness :
    destroyListener (destroyListener [("a", [1, 2])] "a" 1) "a" 1 =
      destroyListener [("a", [1, 2])] "a" 1 :=
  destroy_twice_behaviour.1 [("a", [1, 2])] "a" 1 (by decide)

/-- C10: the two pattern compilers disagree: for pattern `user:**` and
topic `user`, the dispatcher's `Pulse.matchesPattern` accepts (trailing
`:**` is optional) while `Middleware.matches` rejects (its `**` becomes
`(.*)` after a mandatory escaped separator), so a listener under that
pattern runs while a middleware under the same pattern string is filtered
out of its chain: the emission's probe log shows the listener's label and
not the middleware's. -/
theorem listener_mw_matcher_disagreement :
    matchPattern "user" "user:**" = true ∧
    mwMatches "user" "user:**" = false ∧
    ∃ r, emit { listeners := [("user:**", [{ pattern := "user:**", probe := some "L" }])],
                middlewares := [{ pattern := "user:**", pre := [.probe "M"] }] }
          "user" {} = .ok r ∧ r.log = ["L"] :=
  ⟨by decide, by decide, ⟨_, rfl, by decide⟩⟩

end PulseModel
